import Mathlib

/-!
# Verification of the BLE advertisement scanner (`bt_scan_ll.py`)

Shallow embedding of the scanner's AD-structure decoders, device registry,
scan-session lifecycle and result reporting, together with proofs of the
specification claims about them.

Byte buffers are modelled as `List Nat` (every byte of a real buffer is
`< 256`).  Python exceptions are modelled explicitly: the body of each
`try:` block is a function returning `Except PyErr _`, and the enclosing
`except:` handler is applied on top, exactly as in the source.  Python
slices (`b[i:j]`) clamp to the buffer, which `pySlice` reproduces.

The decoder loops in the source advance `i` by `1 + length` with
`length ≠ 0`, so they terminate; the embedding makes this structural by
passing a fuel argument that the public entry points instantiate with
`b.length + 1`, which is provably sufficient.
-/

/-- Python exceptions that can arise in the modelled code. -/
inductive PyErr where
  | indexError
  | unicodeError
  | scanError
  deriving DecidableEq, Repr

/-- Python slice `b[start:stop]` with non-negative indices: clamps to the
buffer, never raises. -/
def pySlice (b : List Nat) (start stop : Nat) : List Nat :=
  (b.take stop).drop start

/-- Uppercase hexadecimal digit (used by `'{:02X}'.format` / `f"{:04X}"`). -/
def hexDigitUpper (n : Nat) : Char :=
  if n < 10 then Char.ofNat (48 + n) else Char.ofNat (55 + n)

/-- Lowercase hexadecimal digit (used by `bytes.hex()`). -/
def hexDigitLower (n : Nat) : Char :=
  if n < 10 then Char.ofNat (48 + n) else Char.ofNat (87 + n)

/-- The two hex digits of one byte, as printed by `bytes.hex()`
(faithful for byte values `< 256`). -/
def hexPairLower (b : Nat) : List Char :=
  [hexDigitLower (b / 16 % 16), hexDigitLower (b % 16)]

/-- `bytes.hex()`: lowercase hex string of a byte sequence. -/
def bytesHex (l : List Nat) : String :=
  String.mk ((l.map hexPairLower).flatten)

/-- Whether a byte is a UTF-8 continuation byte (`0x80–0xBF`). -/
def utf8Cont (c : Nat) : Bool :=
  128 ≤ c && c < 192

/-- Strict UTF-8 decoding of a byte list, as `bytes.decode('utf-8')`:
`none` models a raised `UnicodeDecodeError`.  Rejects overlong forms,
surrogates and code points above `0x10FFFF`. -/
def utf8Go : List Nat → Option (List Char)
  | [] => some []
  | b :: rest =>
    if b < 128 then
      (utf8Go rest).map (fun cs => Char.ofNat b :: cs)
    else if b < 194 then
      none
    else if b < 224 then
      match rest with
      | c1 :: rest' =>
        if utf8Cont c1 then
          (utf8Go rest').map (fun cs => Char.ofNat ((b - 192) * 64 + (c1 - 128)) :: cs)
        else none
      | [] => none
    else if b < 240 then
      match rest with
      | c1 :: c2 :: rest' =>
        let lo1 := if b = 224 then 160 else 128
        let hi1 := if b = 237 then 159 else 191
        if lo1 ≤ c1 && c1 ≤ hi1 && utf8Cont c2 then
          (utf8Go rest').map
            (fun cs => Char.ofNat ((b - 224) * 4096 + (c1 - 128) * 64 + (c2 - 128)) :: cs)
        else none
      | _ => none
    else if b < 245 then
      match rest with
      | c1 :: c2 :: c3 :: rest' =>
        let lo1 := if b = 240 then 144 else 128
        let hi1 := if b = 244 then 143 else 191
        if lo1 ≤ c1 && c1 ≤ hi1 && utf8Cont c2 && utf8Cont c3 then
          (utf8Go rest').map
            (fun cs =>
              Char.ofNat
                ((b - 240) * 262144 + (c1 - 128) * 4096 + (c2 - 128) * 64 + (c3 - 128)) :: cs)
        else none
      | _ => none
    else none

/-- `bytes.decode('utf-8')` producing a `String`; `none` = `UnicodeDecodeError`. -/
def pyDecodeUtf8 (l : List Nat) : Option String :=
  (utf8Go l).map String.mk

/-! ## `_decode_name` -/

/-- Body of the `while` loop of `_decode_name`, mirroring the source:

```
while i < len(adv_data):
    length = adv_data[i]
    if length == 0: break
    ad_type = adv_data[i + 1]
    if ad_type == 0x09:   return adv_data[i+2:i+1+length].decode('utf-8')
    elif ad_type == 0x08: return adv_data[i+2:i+1+length].decode('utf-8')
    i += 1 + length
```

Reading `adv_data[i+1]` past the end raises `IndexError`; a failed UTF-8
decode raises `UnicodeDecodeError`.  Both escape to the enclosing
`try`/`except` in `_decode_name`.  The fuel argument only makes the
recursion structural; `b.length + 1` is always sufficient. -/
def decodeNameGo (b : List Nat) : Nat → Nat → Except PyErr (Option String)
  | 0, _ => .ok none
  | fuel + 1, i =>
    match b.get? i with
    | none => .ok none
    | some length =>
      if length = 0 then .ok none
      else
        match b.get? (i + 1) with
        | none => .error .indexError
        | some adType =>
          if adType = 9 ∨ adType = 8 then
            match pyDecodeUtf8 (pySlice b (i + 2) (i + 1 + length)) with
            | some s => .ok (some s)
            | none => .error .unicodeError
          else
            decodeNameGo b fuel (i + 1 + length)

/-- `_decode_name`: first Complete (0x09) or Shortened (0x08) Local Name,
decoded as UTF-8; any exception inside the loop is swallowed and `None`
is returned. -/
def _decode_name (b : List Nat) : Option String :=
  match decodeNameGo b (b.length + 1) 0 with
  | .ok v => v
  | .error _ => none

/-! ## `_decode_services` -/

/-- The 16-bit UUID value of a 2-byte little-endian slice,
`struct.unpack('<H', ...)[0]`. -/
def u16le (l : List Nat) : Nat :=
  l.getD 0 0 + 256 * l.getD 1 0

/-- `f"0x{uuid:04X}"` — faithful for `uuid < 0x10000`, which holds for
every 2-byte slice of a real byte buffer. -/
def fmtU16 (l : List Nat) : String :=
  String.mk
    ['0', 'x', hexDigitUpper (u16le l / 4096 % 16), hexDigitUpper (u16le l / 256 % 16),
      hexDigitUpper (u16le l / 16 % 16), hexDigitUpper (u16le l % 16)]

/-- The dashed 128-bit UUID string built by the source from a 16-byte
little-endian slice:

```
'-'.join([uuid_bytes[12:16][::-1].hex(), uuid_bytes[10:12][::-1].hex(),
          uuid_bytes[8:10][::-1].hex(),  uuid_bytes[6:8][::-1].hex(),
          uuid_bytes[0:6][::-1].hex()])
``` -/
def fmtU128 (v : List Nat) : String :=
  String.intercalate "-"
    [bytesHex (pySlice v 12 16).reverse, bytesHex (pySlice v 10 12).reverse,
      bytesHex (pySlice v 8 10).reverse, bytesHex (pySlice v 6 8).reverse,
      bytesHex (pySlice v 0 6).reverse]

/-- `for j in range(i+2, i+1+length, 2): if j+1 < len(adv_data): append ...`
for 16-bit UUID list records.  `List.range' start count 2` is Python's
`range(start, stop, 2)` with `count = (stop - start + 1) / 2`. -/
def uuid16Scan (b : List Nat) (start stop : Nat) (acc : List String) : List String :=
  (List.range' start ((stop - start + 1) / 2) 2).foldl
    (fun l j => if j + 1 < b.length then l ++ [fmtU16 (pySlice b j (j + 2))] else l) acc

/-- `for j in range(i+2, i+1+length, 16): if j+15 < len(adv_data): append ...`
for 128-bit UUID list records. -/
def uuid128Scan (b : List Nat) (start stop : Nat) (acc : List String) : List String :=
  (List.range' start ((stop - start + 15) / 16) 16).foldl
    (fun l j => if j + 15 < b.length then l ++ [fmtU128 (pySlice b j (j + 16))] else l) acc

/-- Body of the `while` loop of `_decode_services`.  The second component
is the `services` list, which survives an exception (it is a local that
the `except: pass` path returns unchanged). -/
def decodeServicesGo (b : List Nat) :
    Nat → Nat → List String → Except PyErr Unit × List String
  | 0, _, acc => (.ok (), acc)
  | fuel + 1, i, acc =>
    match b.get? i with
    | none => (.ok (), acc)
    | some length =>
      if length = 0 then (.ok (), acc)
      else
        match b.get? (i + 1) with
        | none => (.error .indexError, acc)
        | some adType =>
          let acc' :=
            if adType = 2 ∨ adType = 3 then uuid16Scan b (i + 2) (i + 1 + length) acc
            else if adType = 6 ∨ adType = 7 then uuid128Scan b (i + 2) (i + 1 + length) acc
            else acc
          decodeServicesGo b fuel (i + 1 + length) acc'

/-- `_decode_services`: all 16-bit (`0x02`/`0x03`) and 128-bit
(`0x06`/`0x07`) service UUIDs, in buffer scan order; exceptions are
swallowed and the list collected so far is returned. -/
def _decode_services (b : List Nat) : List String :=
  (decodeServicesGo b (b.length + 1) 0 []).2

/-! ## `_decode_manufacturer` -/

/-- Body of the `while` loop of `_decode_manufacturer`. -/
def decodeManufacturerGo (b : List Nat) : Nat → Nat → Except PyErr (Option (List Nat))
  | 0, _ => .ok none
  | fuel + 1, i =>
    match b.get? i with
    | none => .ok none
    | some length =>
      if length = 0 then .ok none
      else
        match b.get? (i + 1) with
        | none => .error .indexError
        | some adType =>
          if adType = 255 then .ok (some (pySlice b (i + 2) (i + 1 + length)))
          else decodeManufacturerGo b fuel (i + 1 + length)

/-- `_decode_manufacturer`: the raw value of the first Manufacturer
Specific Data (`0xFF`) record; exceptions swallowed, `None` otherwise. -/
def _decode_manufacturer (b : List Nat) : Option (List Nat) :=
  match decodeManufacturerGo b (b.length + 1) 0 with
  | .ok v => v
  | .error _ => none

example : _decode_name [2, 1, 6, 8, 9, 84, 101, 115, 116, 49, 2, 3, 10, 24] =
    some "Test1\x02\x03" := by decide

example : _decode_services [2, 1, 6, 8, 9, 84, 101, 115, 116, 49, 2, 3, 10, 24] = [] := by
  decide

example : _decode_services [2, 1, 6, 6, 8, 84, 101, 115, 116, 49, 3, 3, 10, 24] =
    ["0x180A"] := by decide

example : _decode_name [2, 1, 6, 6, 8, 84, 101, 115, 116, 49, 3, 3, 10, 24] =
    some "Test1" := by decide

/-! ## The IRQ handler and the device registry -/

/-- One `IRQ_SCAN_RESULT` event payload
`(addr_type, addr, adv_type, rssi, adv_data)`. -/
structure ScanResultEvent where
  addrType : Nat
  addr : List Nat
  advType : Nat
  rssi : Int
  advData : List Nat
  deriving DecidableEq, Repr

/-- The per-device dictionary value built by `_irq`. -/
structure DeviceRecord where
  name : String
  rssi : Int
  addrType : String
  connectable : Bool
  services : List String
  manufacturerData : Option (List Nat)
  advType : Nat
  deriving DecidableEq, Repr

/-- `self.devices_found`: a Python `dict` keyed by MAC string; modelled as
an association list in insertion order (Python dicts preserve it). -/
abbrev Registry := List (String × DeviceRecord)

/-- `':'.join(['{:02X}'.format(b) for b in addr])` (faithful for bytes `< 256`). -/
def formatMac (addr : List Nat) : String :=
  String.intercalate ":"
    (addr.map (fun b => String.mk [hexDigitUpper (b / 16 % 16), hexDigitUpper (b % 16)]))

/-- Python `x or d` for an optional string `x`: `None` and `""` are falsy. -/
def pyOrStr (o : Option String) (d : String) : String :=
  match o with
  | none => d
  | some s => if s = "" then d else s

/-- The record stored by `_irq` for a new address. -/
def mkDeviceRecord (ev : ScanResultEvent) : DeviceRecord where
  name := pyOrStr (_decode_name ev.advData) "Unknown"
  rssi := ev.rssi
  addrType := if ev.addrType = 0 then "Public" else "Random"
  connectable := ev.advType == 0 || ev.advType == 1
  services := _decode_services ev.advData
  manufacturerData := _decode_manufacturer ev.advData
  advType := ev.advType

/-- `mac_addr in self.devices_found`. -/
def registryContains (regs : Registry) (mac : String) : Bool :=
  regs.any (fun p => p.1 == mac)

/-- The `IRQ_SCAN_RESULT` branch of `_irq`: insert-if-absent keyed by the
formatted MAC address.  The returned `Bool` records whether an insertion
happened (the source prints a `*` exactly in that case). -/
def irqScanResult (regs : Registry) (ev : ScanResultEvent) : Registry × Bool :=
  let mac := formatMac ev.addr
  if registryContains regs mac then (regs, false)
  else (regs ++ [(mac, mkDeviceRecord ev)], true)

/-! ## The scan session (`scan_devices`) -/

/-- The mutable state of an `ESP32BLEScanner` during `scan_devices`,
plus instrumentation counters for the effects the claims are about. -/
structure ScannerState where
  devicesFound : Registry := []
  scanComplete : Bool := false
  ledOn : Bool := false
  /-- number of `self.ble.gap_scan(None)` (stop-scan) calls issued -/
  stopScanCalls : Nat := 0
  /-- number of `self.led.off()` calls issued -/
  ledOffCalls : Nat := 0
  /-- whether the wait loop exited through its timeout `break`
  (the `"Scan timeout!"` print) -/
  loopTimedOut : Bool := false
  /-- number of poll iterations (100 ms sleeps) performed before exit -/
  pollIters : Nat := 0
  deriving DecidableEq, Repr

/-- An effectful Python statement: transforms the scanner state and either
returns a value or raises. -/
abbrev EffM (α : Type) := ScannerState → Except PyErr α × ScannerState

/-- Sequencing of two statements; a raise skips the rest of the block but
keeps the state mutated so far. -/
def effSeq (m : EffM Unit) (k : EffM α) : EffM α := fun s =>
  match m s with
  | (.ok _, s') => k s'
  | (.error e, s') => (.error e, s')

/-- `try: body except Exception: handler` — every modelled error is an
`Exception` subclass, so the handler always catches. -/
def pyTry (body : EffM α) (handler : PyErr → EffM α) : EffM α := fun s =>
  match body s with
  | (.ok a, s') => (.ok a, s')
  | (.error e, s') => handler e s'

/-- `try: body finally: fin` — the finalizer runs on both exit paths; if
the body raised and the finalizer completes, the body's error resumes. -/
def pyFinally (body : EffM α) (fin : EffM Unit) : EffM α := fun s =>
  match body s with
  | (r, s') =>
    match fin s' with
    | (.ok _, s'') => (r, s'')
    | (.error e, s'') => (.error e, s'')

/-- A state update that cannot raise. -/
def effStep (f : ScannerState → ScannerState) : EffM Unit := fun s => (.ok (), f s)

/-- A radio call that raises `ScanError` when the environment says so and
otherwise applies its state update. -/
def radioCall (raises : Bool) (f : ScannerState → ScannerState) : EffM Unit := fun s =>
  if raises then (.error .scanError, s) else (.ok (), f s)

/-- The behaviour of the external radio/driver during one `scan_devices`
call: which of its operations raise, which scan-result events it
delivers, and whether/when (at which poll check) `IRQ_SCAN_DONE` fires. -/
structure RadioEnv where
  hasLed : Bool
  activeRaises : Bool
  irqRaises : Bool
  gapScanRaises : Bool
  stopScanRaises : Bool
  reports : List ScanResultEvent
  doneAtPoll : Option Nat
  deriving DecidableEq, Repr

/-- Whether `scan_complete` has been set by the time of poll check `k`. -/
def scanDoneBy (doneAtPoll : Option Nat) (k : Nat) : Bool :=
  match doneAtPoll with
  | some n => n ≤ k
  | none => false

/-- The polling wait loop of `scan_devices`:

```
start_time = time.ticks_ms()
while not self.scan_complete:
    if time.ticks_diff(time.ticks_ms(), start_time) > (duration_seconds + 2) * 1000:
        break                      # timeout
    await asyncio.sleep_ms(100)
```

Each iteration sleeps 100 ms, so elapsed wall-clock time at check `k` is
`100 * k` ms.  Returns (completed?, poll iterations); fuel
`deadline / 100 + 2` is provably sufficient. -/
def waitGo (doneAtPoll : Option Nat) (deadline : Nat) : Nat → Nat → Bool × Nat
  | 0, k => (false, k)
  | fuel + 1, k =>
    if scanDoneBy doneAtPoll k then (true, k)
    else if 100 * k > deadline then (false, k)
    else waitGo doneAtPoll deadline fuel (k + 1)

/-- The `try:` body of `scan_devices`: activate the radio, register the
IRQ handler, start the scan, receive the scan-result events, await
completion or timeout. -/
def scanBody (env : RadioEnv) (durationSeconds : Nat) : EffM Unit :=
  effSeq (radioCall env.activeRaises id)
    (effSeq (radioCall env.irqRaises id)
      (effSeq (radioCall env.gapScanRaises id)
        (effSeq
          (effStep (fun s =>
            { s with devicesFound :=
                env.reports.foldl (fun r ev => (irqScanResult r ev).1) s.devicesFound }))
          (effStep (fun s =>
            let deadline := (durationSeconds + 2) * 1000
            let r := waitGo env.doneAtPoll deadline (deadline / 100 + 2) 0
            { s with scanComplete := r.1, loopTimedOut := !r.1, pollIters := r.2 })))))

/-- `self.ble.gap_scan(None)`: the stop-scan call is issued (counted) and
may then raise. -/
def stopScanCall (env : RadioEnv) : EffM Unit := fun s =>
  (if env.stopScanRaises then .error .scanError else .ok (),
    { s with stopScanCalls := s.stopScanCalls + 1 })

/-- The `finally:` block: `if self.led: self.led.off()` then
`try: self.ble.gap_scan(None) except: pass`. -/
def scanFinally (env : RadioEnv) : EffM Unit :=
  effSeq
    (effStep (fun s =>
      if env.hasLed then { s with ledOn := false, ledOffCalls := s.ledOffCalls + 1 } else s))
    (pyTry (stopScanCall env) (fun _ => effStep id))

/-- `scan_devices(duration_seconds)`: clear the registry and completion
flag, switch the LED on, run the guarded body, always run the teardown,
and return `self.devices_found`. -/
def scanDevices (env : RadioEnv) (durationSeconds : Nat) :
    Except PyErr Registry × ScannerState :=
  let s0 : ScannerState :=
    { devicesFound := [], scanComplete := false, ledOn := env.hasLed }
  match
    pyFinally
      (pyTry (scanBody env durationSeconds) (fun _ => effStep id))
      (scanFinally env) s0
  with
  | (.ok _, s) => (.ok s.devicesFound, s)
  | (.error e, s) => (.error e, s)

/-! ## Result reporting -/

/-- The ranking shared by `print_results` and `print_summary`:

```
sorted(self.devices_found.items(), key=lambda x: x[1]['rssi'], reverse=True)
```

Python's `sorted` is a stable merge sort; `reverse=True` sorts descending
while still keeping equal elements in their original order, which is
exactly `List.mergeSort` with `le a b := b.rssi ≤ a.rssi`. -/
def rankDevices (regs : Registry) : Registry :=
  regs.mergeSort (fun a b => b.2.rssi ≤ a.2.rssi)

/-- The signal-strength tier printed by `print_results`. -/
def classifyRssi (rssi : Int) : String :=
  if rssi > -50 then "Excellent"
  else if rssi > -60 then "Good"
  else if rssi > -70 then "Fair"
  else if rssi > -80 then "Weak"
  else "Very Weak"

/-! ## Spec-side definitions

These follow the specification's words (not the source) and are compared
with the source-derived decoders in the refinement claims. -/

/-- An AD record as described by the spec: a type byte and a value. -/
abbrev AdRecord := Nat × List Nat

/-- The `[length][type][value…]` encoding of one record, where `length`
covers `type` + `value`. -/
def encRecord (r : AdRecord) : List Nat :=
  (r.2.length + 1) :: r.1 :: r.2

/-- A buffer that is a concatenation of `[length][type][value…]` records. -/
def encodeAd (rs : List AdRecord) : List Nat :=
  (rs.map encRecord).flatten

/-- Well-formedness of one record of a well-formed AD buffer: genuine
byte values, the length byte fits in a byte, and UUID-list values are a
whole number of 2- resp. 16-byte UUIDs. -/
def wfRecord (r : AdRecord) : Prop :=
  r.1 < 256 ∧ (∀ x ∈ r.2, x < 256) ∧ r.2.length + 1 < 256 ∧
    ((r.1 = 2 ∨ r.1 = 3) → r.2.length % 2 = 0) ∧
    ((r.1 = 6 ∨ r.1 = 7) → r.2.length % 16 = 0)

instance wfRecordDecidable : DecidablePred wfRecord := fun r => by
  unfold wfRecord
  exact inferInstance

/-- The complete 2-byte chunks of a list (a trailing odd byte is dropped). -/
def completePairs : List Nat → List (List Nat)
  | a :: b :: rest => [a, b] :: completePairs rest
  | _ => []

/-- The complete 16-byte chunks of a list (a trailing partial chunk is
dropped). -/
def complete16s : List Nat → List (List Nat)
  | b0 :: b1 :: b2 :: b3 :: b4 :: b5 :: b6 :: b7 ::
      b8 :: b9 :: b10 :: b11 :: b12 :: b13 :: b14 :: b15 :: rest =>
    [b0, b1, b2, b3, b4, b5, b6, b7, b8, b9, b10, b11, b12, b13, b14, b15] ::
      complete16s rest
  | _ => []

/-- Spec rendering of a 2-byte little-endian UUID: `0xNNNN`, uppercase,
four digits. -/
def specFmt16 (c : List Nat) : String :=
  let n := c.getD 0 0 + 256 * c.getD 1 0
  String.mk
    ['0', 'x', hexDigitUpper (n / 4096 % 16), hexDigitUpper (n / 256 % 16),
      hexDigitUpper (n / 16 % 16), hexDigitUpper (n % 16)]

/-- Spec rendering of a 16-byte little-endian UUID: the wire bytes fully
reversed, printed as `8-4-4-4-12` hex groups. -/
def specFmt128 (c : List Nat) : String :=
  let r := c.reverse
  bytesHex (r.take 4) ++ "-" ++ bytesHex ((r.drop 4).take 2) ++ "-" ++
    bytesHex ((r.drop 6).take 2) ++ "-" ++ bytesHex ((r.drop 8).take 2) ++ "-" ++
    bytesHex (r.drop 10)

/-- The UUID strings one record contributes, per the spec: 16-bit lists
(`0x02`/`0x03`) and 128-bit lists (`0x06`/`0x07`), in value order. -/
def specRecordUuids (r : AdRecord) : List String :=
  if r.1 = 2 ∨ r.1 = 3 then (completePairs r.2).map specFmt16
  else if r.1 = 6 ∨ r.1 = 7 then (complete16s r.2).map specFmt128
  else []

/-- All service UUIDs of a well-formed buffer, in buffer scan order. -/
def specServices (rs : List AdRecord) : List String :=
  (rs.map specRecordUuids).flatten

example : specFmt128 [0xFB, 0x34, 0x9B, 0x5F, 0x80, 0x00, 0x00, 0x80,
    0x00, 0x10, 0x00, 0x00, 0x0A, 0x18, 0x00, 0x00] =
    "0000180a-0000-1000-8000-00805f9b34fb" := by decide

example :
    _decode_services (encodeAd [(3, [0x0A, 0x18]), (7, [0xFB, 0x34, 0x9B, 0x5F, 0x80, 0x00,
      0x00, 0x80, 0x00, 0x10, 0x00, 0x00, 0x0A, 0x18, 0x00, 0x00])]) =
    ["0x180A", "0000180a-0000-1000-8000-00805f9b34fb"] := by decide

/-! ## Helper lemmas -/

/-- A Python slice starting at `s` is a `take` of the `drop`. -/
theorem pySlice_eq_take_drop (b : List Nat) (s k : Nat) :
    pySlice b s (s + k) = (b.drop s).take k := by
  rw [pySlice, ← List.take_drop]

/-- Slicing a buffer right after a known prefix. -/
theorem pySlice_append (p l : List Nat) (k : Nat) :
    pySlice (p ++ l) p.length (p.length + k) = l.take k := by
  rw [pySlice_eq_take_drop, List.drop_left]

/-- A slice whose stop clamps at the buffer end is a `drop`. -/
theorem pySlice_of_le (b : List Nat) (s stop : Nat) (h : b.length ≤ stop) :
    pySlice b s stop = b.drop s := by
  rw [pySlice, List.take_of_length_le h]

/-- Reading past a known prefix. -/
theorem get?_append_off (p l : List Nat) (k : Nat) :
    (p ++ l).get? (p.length + k) = l.get? k := by
  rw [List.get?_append_right (by omega)]
  simp

theorem completePairs_short {l : List Nat} (h : l.length ≤ 1) : completePairs l = [] := by
  match l, h with
  | [], _ => rfl
  | [a], _ => rfl

theorem complete16s_short {l : List Nat} (h : l.length ≤ 15) : complete16s l = [] := by
  match l, h with
  | [], _ => rfl
  | [a0], _ => rfl
  | [a0, a1], _ => rfl
  | [a0, a1, a2], _ => rfl
  | [a0, a1, a2, a3], _ => rfl
  | [a0, a1, a2, a3, a4], _ => rfl
  | [a0, a1, a2, a3, a4, a5], _ => rfl
  | [a0, a1, a2, a3, a4, a5, a6], _ => rfl
  | [a0, a1, a2, a3, a4, a5, a6, a7], _ => rfl
  | [a0, a1, a2, a3, a4, a5, a6, a7, a8], _ => rfl
  | [a0, a1, a2, a3, a4, a5, a6, a7, a8, a9], _ => rfl
  | [a0, a1, a2, a3, a4, a5, a6, a7, a8, a9, a10], _ => rfl
  | [a0, a1, a2, a3, a4, a5, a6, a7, a8, a9, a10, a11], _ => rfl
  | [a0, a1, a2, a3, a4, a5, a6, a7, a8, a9, a10, a11, a12], _ => rfl
  | [a0, a1, a2, a3, a4, a5, a6, a7, a8, a9, a10, a11, a12, a13], _ => rfl
  | [a0, a1, a2, a3, a4, a5, a6, a7, a8, a9, a10, a11, a12, a13, a14], _ => rfl

/-- `complete16s` peels off a full 16-byte chunk. -/
theorem complete16s_cons {c rest : List Nat} (h : c.length = 16) :
    complete16s (c ++ rest) = c :: complete16s rest := by
  match c, h with
  | [b0, b1, b2, b3, b4, b5, b6, b7, b8, b9, b10, b11, b12, b13, b14, b15], _ => rfl

/-- The source's slice-wise 128-bit formatting agrees with the spec's
full-byte-reversal description on 16-byte chunks. -/
theorem fmtU128_eq_specFmt128 {c : List Nat} (h : c.length = 16) :
    fmtU128 c = specFmt128 c := by
  match c, h with
  | [b0, b1, b2, b3, b4, b5, b6, b7, b8, b9, b10, b11, b12, b13, b14, b15], _ => rfl

/-! ## Claim C1 -/

/-- The exact 14-byte buffer of the spec's worked example. -/
def specExampleBuffer : List Nat :=
  [0x02, 0x01, 0x06, 0x08, 0x09, 84, 101, 115, 116, 49, 0x02, 0x03, 0x0A, 0x18]

/-- The properly encoded buffer for the intended example: length `0x06`
for the shortened-name record and length `0x03` for the complete 16-bit
UUID record. -/
def intendedExampleBuffer : List Nat :=
  [0x02, 0x01, 0x06, 0x06, 0x08, 84, 101, 115, 116, 49, 0x03, 0x03, 0x0A, 0x18]

/-- C1 (counterexample): on the spec's exact buffer the byte `0x08` at
offset 3 is the record's *length* (covering seven value bytes), so the
name decodes to `"Test1\x02\x03"`, not `"Test1"`, and the record at
offset 12 has AD type `0x18`, so no service UUID is extracted. -/
theorem C1_counterexample :
    _decode_name specExampleBuffer ≠ some "Test1" ∧
    _decode_services specExampleBuffer ≠ ["0x180A"] := by
  decide

/-- C1 (amended): the spec's exact buffer decodes to
name = `"Test1\x02\x03"`, `service_ids = []`, `manufacturer_payload = None`;
the intended values arise from the correctly encoded buffer
`[0x02,0x01,0x06, 0x06,0x08,'T','e','s','t','1', 0x03,0x03,0x0A,0x18]`,
which decodes to name = `"Test1"`, `service_ids = ["0x180A"]`,
`manufacturer_payload = None`. -/
theorem C1_amended_example_decodes :
    _decode_name specExampleBuffer = some "Test1\x02\x03" ∧
    _decode_services specExampleBuffer = [] ∧
    _decode_manufacturer specExampleBuffer = none ∧
    _decode_name intendedExampleBuffer = some "Test1" ∧
    _decode_services intendedExampleBuffer = ["0x180A"] ∧
    _decode_manufacturer intendedExampleBuffer = none := by
  decide

/-! ## Claim C2 (counterexample) -/

/-- C2 (counterexample): a record whose declared length exceeds the
remaining bytes is *not* skipped.  In `[0x05, 0x09, 0x41]` the name
record declares 5 bytes but only 1 value byte remains; the decoder
returns the partially read name `"A"` instead of nothing.  Likewise a
truncated manufacturer record returns its clamped value, and a truncated
16-bit UUID list contributes the UUIDs that happen to lie inside the
buffer. -/
theorem C2_counterexample :
    _decode_name [0x05, 0x09, 0x41] = some "A" ∧
    _decode_manufacturer [0x05, 0xFF, 0x41] = some [0x41] ∧
    _decode_services [0x07, 0x03, 0x0A, 0x18] = ["0x180A"] := by
  decide

/-! ## Claim C4 -/

/-- C4: the registry is first-report-wins.  If the formatted address is
already a key, the `IRQ_SCAN_RESULT` branch leaves the registry
completely unchanged (every stored field, including `rssi`, keeps its
first-report value) and reports "not inserted"; and processing any event
preserves the at-most-one-record-per-address invariant (no duplicate
keys). -/
theorem C4_registry_first_report_wins :
    ∀ (regs : Registry) (ev : ScanResultEvent),
      (registryContains regs (formatMac ev.addr) = true →
        irqScanResult regs ev = (regs, false)) ∧
      ((regs.map Prod.fst).Nodup →
        (((irqScanResult regs ev).1).map Prod.fst).Nodup) := by
  intro regs ev
  constructor
  · intro h
    simp [irqScanResult, h]
  · intro h
    by_cases hc : registryContains regs (formatMac ev.addr) = true
    · simp [irqScanResult, hc, h]
    · have hmac : formatMac ev.addr ∉ regs.map Prod.fst := by
        intro hmem
        apply hc
        simp only [registryContains, List.any_eq_true]
        obtain ⟨p, hp, hpa⟩ := List.mem_map.mp hmem
        exact ⟨p, hp, by simp [hpa]⟩
      simp only [irqScanResult]
      rw [if_neg hc]
      simp only [List.map_append, List.map_cons, List.map_nil]
      refine List.Nodup.append h (by simp) ?_
      intro a ha hb
      simp only [List.mem_singleton] at hb
      subst hb
      exact hmac ha

/-- First scan-result event of the spec's duplicate-address example:
signal strength −55 dBm. -/
def evFirstReport : ScanResultEvent :=
  { addrType := 0, addr := [1, 2, 3, 4, 5, 6], advType := 0, rssi := -55, advData := [] }

/-- Second event for the same address: signal strength −40 dBm. -/
def evSecondReport : ScanResultEvent :=
  { addrType := 0, addr := [1, 2, 3, 4, 5, 6], advType := 0, rssi := -40, advData := [] }

/-- C4 (witness): after a −55 dBm report, a −40 dBm report for the same
address changes nothing and is "not inserted"; the −55 record is
retained and keys stay unique. -/
theorem C4_registry_first_report_wins_witness :
    irqScanResult (irqScanResult [] evFirstReport).1 evSecondReport =
      ((irqScanResult [] evFirstReport).1, false) ∧
    (((irqScanResult [] evFirstReport).1).map Prod.fst).Nodup ∧
    ((irqScanResult (irqScanResult [] evFirstReport).1 evSecondReport).1.map
      (fun p => p.2.rssi)) = [-55] := by
  refine ⟨(C4_registry_first_report_wins _ evSecondReport).1 (by decide),
    (C4_registry_first_report_wins [] evFirstReport).2 (by simp), by decide⟩

/-! ## Claim C5 -/

/-- C5: each sub-decoder is a total function (it always terminates with a
value), and an exception raised anywhere inside the scanning loop is
caught by the decoder's own `try/except`: the name decoder then returns
`None`, the services decoder returns exactly the UUID list collected
before the malformed point, and the manufacturer decoder returns
`None` — nothing propagates to the caller. -/
theorem C5_decoders_never_raise :
    ∀ b : List Nat,
      (∀ e : PyErr, decodeNameGo b (b.length + 1) 0 = .error e →
        _decode_name b = none) ∧
      (∀ (e : PyErr) (acc : List String),
        decodeServicesGo b (b.length + 1) 0 [] = (.error e, acc) →
        _decode_services b = acc) ∧
      (∀ e : PyErr, decodeManufacturerGo b (b.length + 1) 0 = .error e →
        _decode_manufacturer b = none) := by
  intro b
  refine ⟨fun e h => ?_, fun e acc h => ?_, fun e h => ?_⟩
  · simp [_decode_name, h]
  · simp [_decode_services, h]
  · simp [_decode_manufacturer, h]

/-- C5 (witness): the buffer `[0x02]` declares a record but ends before
its type byte; all three decoders hit the `IndexError`, swallow it, and
return their empty results. -/
theorem C5_decoders_never_raise_witness :
    _decode_name [2] = none ∧ _decode_services [2] = [] ∧
    _decode_manufacturer [2] = none :=
  ⟨(C5_decoders_never_raise [2]).1 .indexError rfl,
    (C5_decoders_never_raise [2]).2.1 .indexError [] rfl,
    (C5_decoders_never_raise [2]).2.2 .indexError rfl⟩

/-! ## Claim C10 -/

/-- C10: when the advertisement yields no name — no name record, invalid
UTF-8 (decoder returns `None`), or a name record decoding to the empty
string (falsy in `name or "Unknown"`) — the stored record's name is the
literal `"Unknown"`, and that is the record inserted for a new address. -/
theorem C10_missing_name_unknown :
    ∀ (regs : Registry) (ev : ScanResultEvent),
      (_decode_name ev.advData = none ∨ _decode_name ev.advData = some "") →
      (mkDeviceRecord ev).name = "Unknown" ∧
      (registryContains regs (formatMac ev.addr) = false →
        (irqScanResult regs ev).1 = regs ++ [(formatMac ev.addr, mkDeviceRecord ev)]) := by
  intro regs ev h
  constructor
  · rcases h with h | h <;> simp [mkDeviceRecord, pyOrStr, h]
  · intro hc
    simp [irqScanResult, hc]

/-- An event whose advertisement data is empty (no name record at all). -/
def evNoName : ScanResultEvent :=
  { addrType := 0, addr := [16, 32, 48, 64, 80, 96], advType := 2, rssi := -70,
    advData := [] }

/-- An event whose name record decodes to the empty string
(`[0x01, 0x09]`: length 1, type Complete Local Name, no value bytes). -/
def evEmptyName : ScanResultEvent :=
  { addrType := 1, addr := [1, 1, 1, 1, 1, 1], advType := 0, rssi := -30,
    advData := [0x01, 0x09] }

/-- C10 (witness): both a missing name record and an empty-string name
yield a stored name of `"Unknown"`, and the record is inserted under the
formatted address. -/
theorem C10_missing_name_unknown_witness :
    (mkDeviceRecord evNoName).name = "Unknown" ∧
    (mkDeviceRecord evEmptyName).name = "Unknown" ∧
    (irqScanResult [] evNoName).1 = [(formatMac evNoName.addr, mkDeviceRecord evNoName)] :=
  ⟨(C10_missing_name_unknown [] evNoName (Or.inl rfl)).1,
    (C10_missing_name_unknown [] evEmptyName (Or.inr rfl)).1,
    (C10_missing_name_unknown [] evNoName (Or.inl rfl)).2 rfl⟩

/-! ## Claims C3, C8, C9 — the scan session -/

/-- Fuel sufficiency for the wait loop with no scan-done event: it exits
through the timeout `break` at the first poll check whose elapsed time
exceeds the deadline, i.e. at iteration `deadline / 100 + 1`. -/
theorem waitGo_none_timeout :
    ∀ (deadline fuel k : Nat), k ≤ deadline / 100 + 1 → deadline / 100 + 1 < k + fuel →
      waitGo none deadline fuel k = (false, deadline / 100 + 1) := by
  intro deadline fuel
  induction fuel with
  | zero => intro k h1 h2; omega
  | succ fuel ih =>
    intro k h1 h2
    by_cases hk : 100 * k > deadline
    · have hk' : k = deadline / 100 + 1 := by omega
      subst hk'
      have hgt : 100 * (deadline / 100 + 1) > deadline := by omega
      simp [waitGo, scanDoneBy, hgt]
    · have : ¬ 100 * k > deadline := hk
      simp only [waitGo, scanDoneBy, this, if_false]
      exact ih (k + 1) (by omega) (by omega)

/-- A scan environment in which radio activation raises. -/
def envActivationError : RadioEnv :=
  { hasLed := false, activeRaises := true, irqRaises := false, gapScanRaises := false,
    stopScanRaises := false, reports := [], doneAtPoll := none }

/-- C3 (counterexample): when `ble.active(True)` raises, `scan_devices`
does *not* surface the error — `except Exception` catches it, teardown
runs, and the function returns the (empty) device collection as a normal
result. -/
theorem C3_counterexample :
    (scanDevices envActivationError 5).1 = .ok [] ∧
    (scanDevices envActivationError 5).2.stopScanCalls = 1 :=
  ⟨rfl, rfl⟩

/-- C3 (amended): if radio activation (or IRQ registration, or issuing
the scan command) raises, the session still runs teardown exactly once,
but the error is caught and logged inside `scan_devices`, which then
returns the empty device collection normally; nothing propagates to the
caller. -/
theorem C3_error_swallowed :
    ∀ (env : RadioEnv) (d : Nat),
      (env.activeRaises = true ∨ env.irqRaises = true ∨ env.gapScanRaises = true) →
      (scanDevices env d).1 = .ok [] ∧
      (scanDevices env d).2.devicesFound = [] ∧
      (scanDevices env d).2.stopScanCalls = 1 := by
  intro env d h
  rcases env with ⟨led, act, irq, gap, stop, reports, done⟩
  cases act <;> cases irq <;> cases gap <;> cases stop <;> cases led <;>
    simp_all [scanDevices, scanBody, scanFinally, stopScanCall, pyTry, pyFinally,
      effSeq, effStep, radioCall]

/-- C3 (witness): the activation-error environment, concretely. -/
theorem C3_error_swallowed_witness :
    (scanDevices envActivationError 5).1 = .ok [] ∧
    (scanDevices envActivationError 5).2.devicesFound = [] ∧
    (scanDevices envActivationError 5).2.stopScanCalls = 1 :=
  C3_error_swallowed envActivationError 5 (Or.inl rfl)

/-- C9: on every exit path of `scan_devices` — normal completion,
timeout, or an exception during activation/IRQ registration/scanning,
and whether or not the stop-scan call itself raises — the teardown in
`finally` issues exactly one stop-scan call, deactivates the LED
indicator exactly once when one exists, and `scan_devices` returns the
device collection normally (no error, in particular no stop-scan error,
ever propagates). -/
theorem C9_teardown_exactly_once :
    ∀ (env : RadioEnv) (d : Nat),
      (scanDevices env d).2.stopScanCalls = 1 ∧
      (env.hasLed = true → (scanDevices env d).2.ledOffCalls = 1) ∧
      (env.hasLed = false → (scanDevices env d).2.ledOffCalls = 0) ∧
      (scanDevices env d).1 = .ok ((scanDevices env d).2.devicesFound) := by
  intro env d
  rcases env with ⟨led, act, irq, gap, stop, reports, done⟩
  cases act <;> cases irq <;> cases gap <;> cases stop <;> cases led <;>
    simp_all [scanDevices, scanBody, scanFinally, stopScanCall, pyTry, pyFinally,
      effSeq, effStep, radioCall]

/-- An environment with an LED whose stop-scan call raises (stopping an
already-stopped scan) and whose radio never signals completion. -/
def envStopRaises : RadioEnv :=
  { hasLed := true, activeRaises := false, irqRaises := false, gapScanRaises := false,
    stopScanRaises := true, reports := [], doneAtPoll := none }

/-- C9 (witness): even when the stop-scan call raises, teardown is
counted once, the LED is switched off once, and the caller gets a normal
result. -/
theorem C9_teardown_exactly_once_witness :
    (scanDevices envStopRaises 1).2.stopScanCalls = 1 ∧
    (scanDevices envStopRaises 1).2.ledOffCalls = 1 ∧
    (scanDevices envStopRaises 1).1 = .ok ((scanDevices envStopRaises 1).2.devicesFound) :=
  ⟨(C9_teardown_exactly_once envStopRaises 1).1,
    (C9_teardown_exactly_once envStopRaises 1).2.1 rfl,
    (C9_teardown_exactly_once envStopRaises 1).2.2.2⟩

/-- C8: if no scan-done event ever arrives and the radio calls succeed,
the wait loop of `scan_devices` exits through its timeout branch at the
first poll check whose elapsed wall-clock time (100 ms per poll) exceeds
`(duration + 2) seconds`: after `(d + 2) * 10 + 1` polls.  The session
therefore reaches a terminal state instead of waiting forever. -/
theorem C8_wait_loop_timeout :
    ∀ (env : RadioEnv) (d : Nat),
      env.doneAtPoll = none → env.activeRaises = false → env.irqRaises = false →
      env.gapScanRaises = false →
      (scanDevices env d).2.loopTimedOut = true ∧
      (scanDevices env d).2.pollIters = (d + 2) * 10 + 1 ∧
      100 * (scanDevices env d).2.pollIters > (d + 2) * 1000 := by
  intro env d hdone hact hirq hgap
  rcases env with ⟨led, act, irq, gap, stop, reports, done⟩
  simp only at hdone hact hirq hgap
  subst hdone hact hirq hgap
  have hdiv : (d + 2) * 1000 / 100 = (d + 2) * 10 := by omega
  have hwait := waitGo_none_timeout ((d + 2) * 1000) ((d + 2) * 1000 / 100 + 2) 0
    (by omega) (by omega)
  cases stop <;> cases led <;>
    simp_all [scanDevices, scanBody, scanFinally, stopScanCall, pyTry, pyFinally,
      effSeq, effStep, radioCall, hwait, hdiv] <;> omega

/-- A quiet environment: every radio call succeeds but no event ever
arrives. -/
def envSilentRadio : RadioEnv :=
  { hasLed := false, activeRaises := false, irqRaises := false, gapScanRaises := false,
    stopScanRaises := false, reports := [], doneAtPoll := none }

/-- C8 (witness): with a 0-second configured duration and a silent radio
the loop times out after 21 polls (2.1 s elapsed > 2 s threshold). -/
theorem C8_wait_loop_timeout_witness :
    (scanDevices envSilentRadio 0).2.loopTimedOut = true ∧
    (scanDevices envSilentRadio 0).2.pollIters = 21 ∧
    100 * (scanDevices envSilentRadio 0).2.pollIters > 2000 :=
  C8_wait_loop_timeout envSilentRadio 0 rfl rfl rfl rfl

/-! ## Claim C7 -/

/-- The Boolean comparison used by `rankDevices`. -/
theorem rank_le_trans :
    ∀ a b c : String × DeviceRecord,
      (decide (b.2.rssi ≤ a.2.rssi)) → (decide (c.2.rssi ≤ b.2.rssi)) →
      (decide (c.2.rssi ≤ a.2.rssi)) := by
  intro a b c hab hbc
  simp only [decide_eq_true_eq] at *
  exact le_trans hbc hab

theorem rank_le_total :
    ∀ a b : String × DeviceRecord,
      ((decide (b.2.rssi ≤ a.2.rssi)) || (decide (a.2.rssi ≤ b.2.rssi))) := by
  intro a b
  simp only [Bool.or_eq_true, decide_eq_true_eq]
  exact (Int.le_total b.2.rssi a.2.rssi)

/-- C7: the ranked sequence is sorted by `signal_strength` descending, it
is a permutation of the registry contents, and the sort is stable: any
two entries with equal `signal_strength` that appear in a given relative
order in the registry appear in the same relative order in the ranking. -/
theorem C7_rank_sorted_stable :
    ∀ regs : Registry,
      (rankDevices regs).Pairwise (fun a b => b.2.rssi ≤ a.2.rssi) ∧
      (rankDevices regs).Perm regs ∧
      (∀ a b : String × DeviceRecord, a.2.rssi = b.2.rssi →
        List.Sublist [a, b] regs → List.Sublist [a, b] (rankDevices regs)) := by
  intro regs
  refine ⟨?_, ?_, ?_⟩
  · have h := List.sorted_mergeSort rank_le_trans rank_le_total regs
    exact h.imp (fun hab => by simpa using hab)
  · exact List.mergeSort_perm regs _
  · intro a b hab hsub
    exact List.pair_sublist_mergeSort rank_le_trans rank_le_total
      (by simp [hab.symm.le]) hsub

/-- Two same-strength records and a stronger one, for the stability
witness. -/
def recTieA : DeviceRecord :=
  { name := "A", rssi := -50, addrType := "Public", connectable := true,
    services := [], manufacturerData := none, advType := 0 }

def recTieB : DeviceRecord :=
  { name := "B", rssi := -50, addrType := "Public", connectable := true,
    services := [], manufacturerData := none, advType := 0 }

def recStrong : DeviceRecord :=
  { name := "C", rssi := -40, addrType := "Random", connectable := false,
    services := [], manufacturerData := none, advType := 2 }

/-- C7 (witness): in a registry holding two −50 dBm records (in insertion
order A then B) and a −40 dBm record, the pair A, B keeps its insertion
order inside the ranking. -/
theorem C7_rank_sorted_stable_witness :
    List.Sublist [("AA", recTieA), ("BB", recTieB)]
      (rankDevices [("AA", recTieA), ("BB", recTieB), ("CC", recStrong)]) :=
  (C7_rank_sorted_stable [("AA", recTieA), ("BB", recTieB), ("CC", recStrong)]).2.2
    ("AA", recTieA) ("BB", recTieB) rfl
    (List.sublist_append_left [("AA", recTieA), ("BB", recTieB)] [("CC", recStrong)])

/-! ## Claim C6 -/

/-- Inner loop of `_decode_services` over a whole even-length 16-bit UUID
list value `v` sitting between `q` and `s`: every 2-byte guard passes and
the pairs are appended in value order. -/
theorem scan16_foldl :
    ∀ (n : Nat) (v q s : List Nat) (acc : List String), v.length = 2 * n →
      (List.range' q.length n 2).foldl
        (fun l j => if j + 1 < (q ++ (v ++ s)).length then
            l ++ [fmtU16 (pySlice (q ++ (v ++ s)) j (j + 2))] else l) acc =
        acc ++ (completePairs v).map specFmt16 := by
  intro n
  induction n with
  | zero =>
    intro v q s acc hv
    have hnil : v = [] := List.length_eq_zero.mp (by omega)
    subst hnil
    simp [completePairs]
  | succ n ih =>
    intro v q s acc hv
    rcases v with _ | ⟨a, v⟩
    · exfalso; simp at hv
    rcases v with _ | ⟨b, v'⟩
    · exfalso; simp at hv; omega
    have hv' : v'.length = 2 * n := by simp at hv; omega
    rw [List.range'_succ]
    simp only [List.foldl_cons]
    have hguard : q.length + 1 < (q ++ ((a :: b :: v') ++ s)).length := by
      simp [List.length_append]
    rw [if_pos hguard]
    have hslice : pySlice (q ++ ((a :: b :: v') ++ s)) q.length (q.length + 2) = [a, b] := by
      rw [pySlice_append]
      rfl
    rw [hslice]
    have hq2 : q.length + 2 = (q ++ [a, b]).length := by simp
    have hbuf : q ++ ((a :: b :: v') ++ s) = (q ++ [a, b]) ++ (v' ++ s) := by simp
    rw [hq2, hbuf, ih v' (q ++ [a, b]) s (acc ++ [fmtU16 [a, b]]) hv']
    have hfmt : fmtU16 [a, b] = specFmt16 [a, b] := rfl
    simp [completePairs, hfmt]

/-- Inner loop of `_decode_services` over a whole 16-divisible 128-bit
UUID list value. -/
theorem scan128_foldl :
    ∀ (n : Nat) (v q s : List Nat) (acc : List String), v.length = 16 * n →
      (List.range' q.length n 16).foldl
        (fun l j => if j + 15 < (q ++ (v ++ s)).length then
            l ++ [fmtU128 (pySlice (q ++ (v ++ s)) j (j + 16))] else l) acc =
        acc ++ (complete16s v).map specFmt128 := by
  intro n
  induction n with
  | zero =>
    intro v q s acc hv
    have hnil : v = [] := List.length_eq_zero.mp (by omega)
    subst hnil
    rw [complete16s_short (by simp)]
    simp
  | succ n ih =>
    intro v q s acc hv
    have hc : (v.take 16).length = 16 := by simp [List.length_take]; omega
    have hw : (v.drop 16).length = 16 * n := by simp [List.length_drop]; omega
    have hsplit : v = v.take 16 ++ v.drop 16 := (List.take_append_drop 16 v).symm
    rw [hsplit]
    rw [List.range'_succ]
    simp only [List.foldl_cons]
    have hguard : q.length + 15 < (q ++ ((v.take 16 ++ v.drop 16) ++ s)).length := by
      simp [List.length_append]
      omega
    rw [if_pos hguard]
    have hslice : pySlice (q ++ ((v.take 16 ++ v.drop 16) ++ s)) q.length (q.length + 16)
        = v.take 16 := by
      rw [pySlice_append]
      rw [List.append_assoc]
      exact List.take_left' hc
    rw [hslice]
    have hq16 : q.length + 16 = (q ++ v.take 16).length := by simp [hc]
    have hbuf : q ++ ((v.take 16 ++ v.drop 16) ++ s)
        = (q ++ v.take 16) ++ (v.drop 16 ++ s) := by
      rw [List.append_assoc (v.take 16) (v.drop 16) s,
        ← List.append_assoc q (v.take 16) (v.drop 16 ++ s)]
    rw [hq16, hbuf, ih (v.drop 16) (q ++ v.take 16) s (acc ++ [fmtU128 (v.take 16)]) hw]
    rw [complete16s_cons hc, fmtU128_eq_specFmt128 hc]
    simp

/-- One record, encoded, then the rest. -/
theorem encodeAd_cons (t : Nat) (v : List Nat) (rs : List AdRecord) :
    encodeAd ((t, v) :: rs) = (v.length + 1) :: t :: (v ++ encodeAd rs) := by
  simp [encodeAd, encRecord]

theorem specServices_cons (r : AdRecord) (rs : List AdRecord) :
    specServices (r :: rs) = specRecordUuids r ++ specServices rs := by
  simp [specServices]

/-- The services scanning loop, run over a well-formed encoded buffer
sitting after an arbitrary prefix `p`, completes without an exception and
appends exactly the spec's UUID strings, in buffer scan order. -/
theorem decodeServicesGo_encode :
    ∀ (rs : List AdRecord) (fuel : Nat) (p : List Nat) (acc : List String),
      (∀ r ∈ rs, wfRecord r) → (encodeAd rs).length ≤ fuel →
      decodeServicesGo (p ++ encodeAd rs) fuel p.length acc =
        (.ok (), acc ++ specServices rs) := by
  intro rs
  induction rs with
  | nil =>
    intro fuel p acc _ _
    have h1 : encodeAd ([] : List AdRecord) = [] := rfl
    rw [h1, List.append_nil]
    have hget : p.get? p.length = none := List.get?_eq_none.mpr (Nat.le_refl _)
    cases fuel with
    | zero => simp [decodeServicesGo, specServices, encodeAd]
    | succ f => simp [decodeServicesGo, hget, specServices, encodeAd]
  | cons r rs ih =>
    intro fuel p acc hwf hfuel
    obtain ⟨t, v⟩ := r
    have hwfr : wfRecord (t, v) := hwf _ (List.mem_cons_self _ _)
    rw [encodeAd_cons] at hfuel ⊢
    have hlen : ((v.length + 1) :: t :: (v ++ encodeAd rs)).length
        = v.length + 2 + (encodeAd rs).length := by
      simp only [List.length_cons, List.length_append]
      omega
    rw [hlen] at hfuel
    cases fuel with
    | zero => exfalso; omega
    | succ f =>
      have hget0 : (p ++ ((v.length + 1) :: t :: (v ++ encodeAd rs))).get? p.length
          = some (v.length + 1) := by
        simpa using get?_append_off p ((v.length + 1) :: t :: (v ++ encodeAd rs)) 0
      have hget1 : (p ++ ((v.length + 1) :: t :: (v ++ encodeAd rs))).get? (p.length + 1)
          = some t := by
        simpa using get?_append_off p ((v.length + 1) :: t :: (v ++ encodeAd rs)) 1
      simp only [decodeServicesGo, hget0, hget1]
      rw [if_neg (by omega : ¬ v.length + 1 = 0)]
      have hrest : ∀ acc' : List String,
          decodeServicesGo (p ++ ((v.length + 1) :: t :: (v ++ encodeAd rs))) f
            (p.length + 1 + (v.length + 1)) acc' = (.ok (), acc' ++ specServices rs) := by
        intro acc'
        have hp' : p.length + 1 + (v.length + 1) = (p ++ ((v.length + 1) :: t :: v)).length := by
          simp
          omega
        have hbuf2 : p ++ ((v.length + 1) :: t :: (v ++ encodeAd rs))
            = (p ++ ((v.length + 1) :: t :: v)) ++ encodeAd rs := by simp
        rw [hp', hbuf2]
        exact ih f (p ++ ((v.length + 1) :: t :: v)) acc'
          (fun r hr => hwf r (List.mem_cons_of_mem _ hr)) (by omega)
      by_cases h23 : t = 2 ∨ t = 3
      · have hpar2 : v.length % 2 = 0 := hwfr.2.2.2.1 h23
        obtain ⟨m, hm⟩ : ∃ m, v.length = 2 * m := ⟨v.length / 2, by omega⟩
        have hscan : uuid16Scan (p ++ ((v.length + 1) :: t :: (v ++ encodeAd rs)))
            (p.length + 2) (p.length + 1 + (v.length + 1)) acc
            = acc ++ (completePairs v).map specFmt16 := by
          have hbuf : p ++ ((v.length + 1) :: t :: (v ++ encodeAd rs))
              = (p ++ [v.length + 1, t]) ++ (v ++ encodeAd rs) := by simp
          have hq : p.length + 2 = (p ++ [v.length + 1, t]).length := by simp
          have hcount : (p.length + 1 + (v.length + 1) - (p.length + 2) + 1) / 2 = m := by
            omega
          simp only [uuid16Scan]
          rw [hcount, hq, hbuf]
          exact scan16_foldl m v (p ++ [v.length + 1, t]) (encodeAd rs) acc hm
        rw [if_pos h23, hscan, hrest, specServices_cons]
        simp only [specRecordUuids]
        rw [if_pos h23, List.append_assoc]
      · by_cases h67 : t = 6 ∨ t = 7
        · have hpar16 : v.length % 16 = 0 := hwfr.2.2.2.2 h67
          obtain ⟨m, hm⟩ : ∃ m, v.length = 16 * m := ⟨v.length / 16, by omega⟩
          have hscan : uuid128Scan (p ++ ((v.length + 1) :: t :: (v ++ encodeAd rs)))
              (p.length + 2) (p.length + 1 + (v.length + 1)) acc
              = acc ++ (complete16s v).map specFmt128 := by
            have hbuf : p ++ ((v.length + 1) :: t :: (v ++ encodeAd rs))
                = (p ++ [v.length + 1, t]) ++ (v ++ encodeAd rs) := by simp
            have hq : p.length + 2 = (p ++ [v.length + 1, t]).length := by simp
            have hcount : (p.length + 1 + (v.length + 1) - (p.length + 2) + 15) / 16 = m := by
              omega
            simp only [uuid128Scan]
            rw [hcount, hq, hbuf]
            exact scan128_foldl m v (p ++ [v.length + 1, t]) (encodeAd rs) acc hm
          rw [if_neg h23, if_pos h67, hscan, hrest, specServices_cons]
          simp only [specRecordUuids]
          rw [if_neg h23, if_pos h67, List.append_assoc]
        · rw [if_neg h23, if_neg h67, hrest, specServices_cons]
          simp only [specRecordUuids]
          rw [if_neg h23, if_neg h67]
          simp

/-- C6: on every well-formed AD buffer (records exactly tile the buffer,
genuine byte values, UUID-list values a whole number of UUIDs), the
service decoder renders each 2-byte little-endian UUID from record types
0x02/0x03 as `0xNNNN` (uppercase, four digits), renders each 16-byte
little-endian UUID from types 0x06/0x07 in canonical 8-4-4-4-12 dashed
form with the wire byte order fully reversed, and concatenates the
values of all such records into one sequence in buffer scan order. -/
theorem C6_service_uuid_rendering :
    ∀ rs : List AdRecord, (∀ r ∈ rs, wfRecord r) →
      _decode_services (encodeAd rs) = specServices rs := by
  intro rs h
  have := decodeServicesGo_encode rs ((encodeAd rs).length + 1) [] [] h (by omega)
  simp only [List.nil_append, List.length_nil] at this
  simp [_decode_services, this]

/-- The two records of the C6 witness buffer: a complete 16-bit UUID list
holding 0x180A and 0xFE0F, and a complete 128-bit UUID list holding the
Device Information service's full UUID in little-endian wire order. -/
def wfUuidRecords : List AdRecord :=
  [(3, [0x0A, 0x18, 0x0F, 0xFE]),
    (7, [0xFB, 0x34, 0x9B, 0x5F, 0x80, 0x00, 0x00, 0x80, 0x00, 0x10, 0x00, 0x00,
      0x0A, 0x18, 0x00, 0x00])]

/-- C6 (witness): the mixed 16-bit/128-bit buffer decodes to the spec
rendering, concretely
`["0x180A", "0xFE0F", "0000180a-0000-1000-8000-00805f9b34fb"]`. -/
theorem C6_service_uuid_rendering_witness :
    _decode_services (encodeAd wfUuidRecords) = specServices wfUuidRecords ∧
    specServices wfUuidRecords =
      ["0x180A", "0xFE0F", "0000180a-0000-1000-8000-00805f9b34fb"] :=
  ⟨C6_service_uuid_rendering wfUuidRecords (by decide), by decide⟩

/-! ## Claim C2 (amended theorem) -/

/-- The 16-bit UUID inner loop on a record whose declared extent runs
past the buffer end: the guard `j + 1 < len(adv_data)` admits exactly
the complete 2-byte chunks that lie inside the buffer. -/
theorem scan16_trunc (b : List Nat) :
    ∀ (count start : Nat) (acc : List String), b.length ≤ start + 2 * count →
      (List.range' start count 2).foldl
        (fun l j => if j + 1 < b.length then l ++ [fmtU16 (pySlice b j (j + 2))] else l) acc =
        acc ++ (completePairs (b.drop start)).map specFmt16 := by
  intro count
  induction count with
  | zero =>
    intro start acc h
    rw [List.drop_eq_nil_of_le (by omega)]
    simp [completePairs]
  | succ n ih =>
    intro start acc h
    rw [List.range'_succ]
    simp only [List.foldl_cons]
    by_cases hg : start + 1 < b.length
    · have hlen2 : 2 ≤ (b.drop start).length := by
        simp only [List.length_drop]
        omega
      rcases hd : b.drop start with _ | ⟨x, rest1⟩
      · rw [hd] at hlen2; simp at hlen2
      rcases hr : rest1 with _ | ⟨y, rest2⟩
      · rw [hd, hr] at hlen2; simp at hlen2
      have hslice : pySlice b start (start + 2) = [x, y] := by
        rw [pySlice_eq_take_drop, hd, hr]
        rfl
      rw [if_pos hg, hslice]
      have hdrop2 : b.drop (start + 2) = rest2 := by
        have h2 : b.drop (start + 2) = (b.drop start).drop 2 := (List.drop_drop 2 start b).symm
        rw [h2, hd, hr]
        rfl
      rw [ih (start + 2) (acc ++ [fmtU16 [x, y]]) (by omega), hdrop2]
      have hfmt : fmtU16 [x, y] = specFmt16 [x, y] := rfl
      rw [hfmt]
      simp [completePairs]
    · rw [if_neg hg]
      have hshort : (b.drop start).length ≤ 1 := by
        simp only [List.length_drop]
        omega
      have hshort2 : (b.drop (start + 2)).length ≤ 1 := by
        simp only [List.length_drop]
        omega
      rw [ih (start + 2) acc (by omega), completePairs_short hshort,
        completePairs_short hshort2]

/-- The 128-bit UUID inner loop on a truncated record: the guard
`j + 15 < len(adv_data)` admits exactly the complete 16-byte chunks that
lie inside the buffer. -/
theorem scan128_trunc (b : List Nat) :
    ∀ (count start : Nat) (acc : List String), b.length ≤ start + 16 * count →
      (List.range' start count 16).foldl
        (fun l j => if j + 15 < b.length then l ++ [fmtU128 (pySlice b j (j + 16))] else l)
        acc =
        acc ++ (complete16s (b.drop start)).map specFmt128 := by
  intro count
  induction count with
  | zero =>
    intro start acc h
    rw [List.drop_eq_nil_of_le (by omega)]
    rw [complete16s_short (by simp)]
    simp
  | succ n ih =>
    intro start acc h
    rw [List.range'_succ]
    simp only [List.foldl_cons]
    by_cases hg : start + 15 < b.length
    · have hc : ((b.drop start).take 16).length = 16 := by
        simp only [List.length_take, List.length_drop]
        omega
      have hslice : pySlice b start (start + 16) = (b.drop start).take 16 :=
        pySlice_eq_take_drop b start 16
      rw [if_pos hg, hslice]
      have hsplit : b.drop start = (b.drop start).take 16 ++ (b.drop start).drop 16 :=
        (List.take_append_drop 16 (b.drop start)).symm
      have hdrop16 : (b.drop start).drop 16 = b.drop (start + 16) := List.drop_drop 16 start b
      rw [ih (start + 16) (acc ++ [fmtU128 ((b.drop start).take 16)]) (by omega)]
      conv_rhs => rw [hsplit]
      rw [complete16s_cons hc, fmtU128_eq_specFmt128 hc, hdrop16]
      simp
    · rw [if_neg hg]
      have hshort : (b.drop start).length ≤ 15 := by
        simp only [List.length_drop]
        omega
      have hshort2 : (b.drop (start + 16)).length ≤ 15 := by
        simp only [List.length_drop]
        omega
      rw [ih (start + 16) acc (by omega), complete16s_short hshort,
        complete16s_short hshort2]

/-- C2 (amended): when the scan reaches a record (at offset `i`, with
length byte `L` and type byte `t`) whose declared length exceeds the
remaining bytes, no byte outside the buffer is read and scanning stops
after that record — but the record is *not* skipped.  A matching name or
manufacturer record returns its value clamped to the buffer end
(`b[i+2:]`); a 16-bit UUID list record contributes exactly the complete
2-byte chunks, and a 128-bit list record exactly the complete 16-byte
chunks, of the clamped value that lie wholly within the buffer.  The
fields accumulated before the truncated record are retained unchanged. -/
theorem C2_truncated_record_clamped :
    ∀ (b : List Nat) (i L t fuel : Nat),
      b.get? i = some L → L ≠ 0 → b.get? (i + 1) = some t →
      b.length < i + 1 + L → 2 ≤ fuel →
      ((t = 9 ∨ t = 8) →
        decodeNameGo b fuel i =
          (match pyDecodeUtf8 (b.drop (i + 2)) with
            | some s => .ok (some s)
            | none => .error .unicodeError)) ∧
      (t = 255 → decodeManufacturerGo b fuel i = .ok (some (b.drop (i + 2)))) ∧
      ((t = 2 ∨ t = 3) → ∀ acc : List String,
        decodeServicesGo b fuel i acc =
          (.ok (), acc ++ (completePairs (b.drop (i + 2))).map specFmt16)) ∧
      ((t = 6 ∨ t = 7) → ∀ acc : List String,
        decodeServicesGo b fuel i acc =
          (.ok (), acc ++ (complete16s (b.drop (i + 2))).map specFmt128)) := by
  intro b i L t fuel hgetL hL0 hgetT hlen hfuel
  cases fuel with
  | zero => omega
  | succ f =>
    refine ⟨fun ht => ?_, fun ht => ?_, fun ht acc => ?_, fun ht acc => ?_⟩
    · simp only [decodeNameGo, hgetL, hgetT]
      rw [if_neg hL0, if_pos ht, pySlice_of_le b (i + 2) (i + 1 + L) (by omega)]
    · simp only [decodeManufacturerGo, hgetL, hgetT]
      rw [if_neg hL0, if_pos ht, pySlice_of_le b (i + 2) (i + 1 + L) (by omega)]
    · simp only [decodeServicesGo, hgetL, hgetT]
      rw [if_neg hL0, if_pos ht]
      cases f with
      | zero => omega
      | succ f2 =>
        have hnone : b.get? (i + 1 + L) = none := List.get?_eq_none.mpr (by omega)
        simp only [decodeServicesGo, hnone]
        have hcount : (i + 1 + L - (i + 2) + 1) / 2 = L / 2 := by omega
        simp only [uuid16Scan]
        rw [hcount, scan16_trunc b (L / 2) (i + 2) acc (by omega)]
    · simp only [decodeServicesGo, hgetL, hgetT]
      have hne23 : ¬ (t = 2 ∨ t = 3) := by rcases ht with h | h <;> omega
      rw [if_neg hL0, if_neg hne23, if_pos ht]
      cases f with
      | zero => omega
      | succ f2 =>
        have hnone : b.get? (i + 1 + L) = none := List.get?_eq_none.mpr (by omega)
        simp only [decodeServicesGo, hnone]
        have hcount : (i + 1 + L - (i + 2) + 15) / 16 = (L + 14) / 16 := by omega
        simp only [uuid128Scan]
        rw [hcount, scan128_trunc b ((L + 14) / 16) (i + 2) acc (by omega)]

/-- A buffer ending in a truncated 128-bit UUID list record: the length
byte `0x21` declares two 16-byte UUIDs but only one lies inside the
buffer. -/
def truncated128Buffer : List Nat :=
  [0x21, 0x07, 0xFB, 0x34, 0x9B, 0x5F, 0x80, 0x00, 0x00, 0x80, 0x00, 0x10, 0x00, 0x00,
    0x0A, 0x18, 0x00, 0x00]

/-- C2 (witness): concrete truncated records for each clause of the
amended claim.  `[0x05,0x09,0x41]` yields the clamped name `"A"`;
`[0x05,0xFF,0x41]` yields the clamped manufacturer payload `[0x41]`;
`[0x07,0x03,0x0A,0x18]` contributes the one complete in-buffer 16-bit
UUID; the truncated 128-bit list contributes its one complete in-buffer
UUID. -/
theorem C2_truncated_record_clamped_witness :
    decodeNameGo [0x05, 0x09, 0x41] 4 0 = .ok (some "A") ∧
    decodeManufacturerGo [0x05, 0xFF, 0x41] 4 0 = .ok (some [0x41]) ∧
    decodeServicesGo [0x07, 0x03, 0x0A, 0x18] 5 0 [] = (.ok (), ["0x180A"]) ∧
    decodeServicesGo truncated128Buffer 19 0 [] =
      (.ok (), ["0000180a-0000-1000-8000-00805f9b34fb"]) :=
  ⟨(C2_truncated_record_clamped [0x05, 0x09, 0x41] 0 5 9 4 rfl (by decide) rfl
      (by decide) (by decide)).1 (Or.inl rfl),
    (C2_truncated_record_clamped [0x05, 0xFF, 0x41] 0 5 255 4 rfl (by decide) rfl
      (by decide) (by decide)).2.1 rfl,
    (C2_truncated_record_clamped [0x07, 0x03, 0x0A, 0x18] 0 7 3 5 rfl (by decide) rfl
      (by decide) (by decide)).2.2.1 (Or.inr rfl) [],
    (C2_truncated_record_clamped truncated128Buffer 0 33 7 19 rfl (by decide) rfl
      (by decide) (by decide)).2.2.2 (Or.inr rfl) []⟩
